import Mathlib

/-!
Shallow embedding of `src/app/app.py` (the MarkItDown FastAPI service).

The service keeps all state in two flat directories, `UPLOAD_DIR`
(`/app/uploads`) and `CONVERTED_DIR` (`/app/converted`).  We model each
directory as an association list from file names to entries (regular file
with its content, or a directory).  The names `""`, `"."` and `".."` are
special: joining them to a directory path resolves to the directory itself
(`""`, `"."`) or to its parent (`".."`), both of which always exist on the
real filesystem, so `pathExists` treats them as existing and `pathIsFile`
as non-files.  Byte strings are modelled as `String`.

Path-name arithmetic (posix `os.path.basename`, `pathlib`'s `Path.stem` /
`Path.suffix`, and the resolution of `DIR / name` against the filesystem
root) is modelled separately on segment lists, so that traversal behaviour
of names containing `/` or `..` can be stated exactly.

Each HTTP handler of `app.py` is translated to a function from the request
inputs and the directory state to an HTTP status code, the new state, and
the interesting part of the JSON body.  The per-request `uuid.uuid4()`
draw and the external `MarkItDown.convert` call are inputs to the handler
(`uuid : String`, `conv : ConvOutcome`), since both are external to the
service's own logic.
-/

namespace MarkitdownApp

/-! ### posix basename: the part of the string after the last slash -/

def basenameAux (acc : List Char) : List Char → List Char
  | [] => acc.reverse
  | c :: cs => if c = '/' then basenameAux [] cs else basenameAux (c :: acc) cs

/-- Model of Python `os.path.basename` on posix: everything after the last
`'/'` (possibly empty, and `".."` stays `".."`). -/
def basename (s : String) : String := ⟨basenameAux [] s.data⟩

/-! ### small string helpers, kept kernel-reducible -/

def charsPrefixOf : List Char → List Char → Bool
  | [], _ => true
  | _ :: _, [] => false
  | a :: as, b :: bs => if a = b then charsPrefixOf as bs else false

/-- Does `s` end with `suf`?  (Model of the `*.md` glob filter / `.md` suffix test.) -/
def strEndsWith (s suf : String) : Bool :=
  charsPrefixOf suf.data.reverse s.data.reverse

/-- Model of Python string slicing `s[:n]` (by code points). -/
def strTake (s : String) (n : Nat) : String := ⟨s.data.take n⟩

/-! ### pathlib `Path(x).name`, `.stem`, `.suffix` -/

def splitSlashAux (acc : List Char) : List Char → List String
  | [] => [⟨acc.reverse⟩]
  | c :: cs => if c = '/' then (⟨acc.reverse⟩ : String) :: splitSlashAux [] cs
               else splitSlashAux (c :: acc) cs

/-- Split a path string on `'/'` (keeping empty segments). -/
def splitSlash (s : String) : List String := splitSlashAux [] s.data

/-- Model of `pathlib` parsing: the retained components of a posix path
(`""` and `"."` segments are dropped, `".."` is kept). -/
def pyParts (s : String) : List String :=
  (splitSlash s).filter (fun seg => if seg = "" then false else if seg = "." then false else true)

/-- Model of `pathlib.Path(s).name`: the last retained component, or `""`. -/
def pyName (s : String) : String := (pyParts s).getLastD ""

def rfindDotAux : List Char → Nat → Option Nat → Option Nat
  | [], _, best => best
  | c :: cs, i, best => rfindDotAux cs (i + 1) (if c = '.' then some i else best)

/-- Index of the last `'.'` in a string, if any (Python `str.rfind('.')`). -/
def rfindDot (n : String) : Option Nat := rfindDotAux n.data 0 none

/-- `stem` of a final path component, per `pathlib`: cut at the last dot
only when that dot is neither at position 0 nor at the very end. -/
def nameStem (n : String) : String :=
  match rfindDot n with
  | none => n
  | some i => if 0 < i ∧ i + 1 < n.length then ⟨n.data.take i⟩ else n

/-- `suffix` of a final path component, per `pathlib`. -/
def nameSuffix (n : String) : String :=
  match rfindDot n with
  | none => ""
  | some i => if 0 < i ∧ i + 1 < n.length then ⟨n.data.drop i⟩ else ""

/-- Model of `pathlib.Path(s).stem`. -/
def pathStem (s : String) : String := nameStem (pyName s)

/-- Model of `pathlib.Path(s).suffix`. -/
def pathSuffix (s : String) : String := nameSuffix (pyName s)

/-! ### path resolution against the filesystem root

A resolved absolute path is a list of segments under `/`.  `normSegs`
performs the resolution the kernel does while walking a path: `""` and
`"."` segments are skipped and `".."` pops the last segment (staying at
the root when already there). -/

def uploadDirSegs : List String := ["app", "uploads"]
def convertedDirSegs : List String := ["app", "converted"]

def normSegs (segs : List String) : List String :=
  segs.foldl
    (fun acc s =>
      if s = "" then acc
      else if s = "." then acc
      else if s = ".." then acc.dropLast
      else acc ++ [s])
    []

def startsWithSlash (s : String) : Bool :=
  match s.data with
  | '/' :: _ => true
  | _ => false

/-- Resolved target of `pathlib`'s `dir / name` (an absolute `name`
replaces `dir`, as `Path.__truediv__` does). -/
def joinUnder (dir : List String) (name : String) : List String :=
  if startsWithSlash name then normSegs (splitSlash name)
  else normSegs (dir ++ splitSlash name)

def segsPrefixOf : List String → List String → Bool
  | [], _ => true
  | _ :: _, [] => false
  | a :: as, b :: bs => if a = b then segsPrefixOf as bs else false

/-- Is the resolved path `p` inside the directory `dir` (the directory
itself included)? -/
def insideDir (dir p : List String) : Bool := segsPrefixOf dir p

/-- Filesystem target of `GET /download/{filename}`:
`app.py` line 471, `file_path = CONVERTED_DIR / filename` — the raw
`filename`, no `os.path.basename`. -/
def download_target (filename : String) : List String :=
  joinUnder convertedDirSegs filename

/-- Filesystem target of `DELETE /delete/{filename}`:
`app.py` line 513, `file_path = CONVERTED_DIR / filename` — the raw
`filename`, no `os.path.basename`. -/
def delete_target (filename : String) : List String :=
  joinUnder convertedDirSegs filename

/-- Filesystem target of the converted-output write,
`app.py` line 145 / 249 / 428: `output_path = CONVERTED_DIR / md_filename`
where `md_filename` embeds the raw `output_filename` override. -/
def convert_output_target (md_filename : String) : List String :=
  joinUnder convertedDirSegs md_filename

/-- Filesystem target of the upload write, `app.py` lines 298-299:
`basename` is applied before joining. -/
def upload_target (filename : String) : List String :=
  joinUnder uploadDirSegs (basename filename)

/-! ### the directory state -/

inductive FsEntry
  | file (content : String)
  | dir
  deriving DecidableEq

abbrev DirState := List (String × FsEntry)

def lookupFs : DirState → String → Option FsEntry
  | [], _ => none
  | (m, e) :: rest, n => if m = n then some e else lookupFs rest n

/-- The names whose join with a directory resolves to an always-existing
directory (the directory itself or its parent) rather than to an entry. -/
def specialName (n : String) : Bool :=
  if n = "" then true else if n = "." then true else if n = ".." then true else false

/-- Model of `(DIR / n).exists()`. -/
def pathExists (d : DirState) (n : String) : Bool :=
  specialName n || (lookupFs d n).isSome

/-- Model of `(DIR / n).is_file()`. -/
def pathIsFile (d : DirState) (n : String) : Bool :=
  if specialName n then false
  else match lookupFs d n with
    | some (FsEntry.file _) => true
    | _ => false

def replaceFs : DirState → String → String → DirState
  | [], _, _ => []
  | (m, e) :: rest, n, c =>
    if m = n then (m, FsEntry.file c) :: replaceFs rest n c
    else (m, e) :: replaceFs rest n c

/-- Model of Python `open(DIR / n, 'w'/'wb')` followed by a full write:
overwrites an existing regular file, fails (`IsADirectoryError`) on a
directory or on the special names. -/
def openWrite (d : DirState) (n c : String) : Option DirState :=
  if specialName n then none
  else match lookupFs d n with
    | some FsEntry.dir => none
    | some (FsEntry.file _) => some (replaceFs d n c)
    | none => some (d ++ [(n, FsEntry.file c)])

def removeFs : DirState → String → DirState
  | [], _ => []
  | (m, e) :: rest, n =>
    if m = n then removeFs rest n else (m, e) :: removeFs rest n

/-- Model of `(DIR / n).unlink()`: removes a regular file, raises on a
directory (including the special names) or a missing entry. -/
def unlinkFs (d : DirState) (n : String) : Option DirState :=
  if specialName n then none
  else match lookupFs d n with
    | some (FsEntry.file _) => some (removeFs d n)
    | _ => none

/-- Model of `app.py` lines 436-437 and 460-461:
`if temp_file_path and temp_file_path.exists(): temp_file_path.unlink()`
(best effort: a failing unlink leaves the state as is). -/
def cleanupTemp (d : DirState) (n : String) : DirState :=
  if pathExists d n then (unlinkFs d n).getD d else d

/-- The service state: the two directories. -/
structure St where
  uploads : DirState
  converted : DirState
  deriving DecidableEq

/-- Outcome of the external `md_converter.convert` call: it raised, it
returned a falsy result object, or it returned a result whose
`text_content` is `text` (possibly empty). -/
inductive ConvOutcome
  | raises
  | noResult
  | produced (text : String)
  deriving DecidableEq

/-- The interesting fields of the success JSON body of the conversion
endpoints. -/
structure ConvertOk where
  original_filename : String
  converted_filename : String
  file_size : Nat
  conversion_id : String
  original_extension : String
  deriving DecidableEq

/-! ### the HTTP handlers -/

/-- Model of `POST /upload` (`upload_file`, `app.py` lines 282-333).
Inputs: the multipart filename and content.  Output: status, new state,
and the reported `file_size` on success. -/
def upload_file (st : St) (filename0 content : String) : Nat × St × Option Nat :=
  if filename0 = "" then (400, st, none)
  else
    let filename := basename filename0
    if pathExists st.uploads filename then (409, st, none)
    else match openWrite st.uploads filename content with
      | none => (500, st, none)
      | some u => (200, { st with uploads := u }, some content.length)

/-- Model of `POST /convert-by-filename` (`convert_file_by_name`,
`app.py` lines 74-176).  `uuid` is the request's `str(uuid.uuid4())`
draw; `conv` the external converter's outcome.  A 422 is produced both
when the converter raises and when its output is falsy/empty (the inner
`except Exception` re-raises the empty-output `HTTPException` with a
different detail string but the same 422 status). -/
def convert_file_by_name (st : St) (file_name0 : String)
    (output_filename : Option String) (uuid : String) (conv : ConvOutcome) :
    Nat × St × Option ConvertOk :=
  if file_name0 = "" then (400, st, none)
  else
    let file_name := basename file_name0
    if !pathExists st.uploads file_name then (404, st, none)
    else if !pathIsFile st.uploads file_name then (400, st, none)
    else
      let unique_id := strTake uuid 8
      let original_name := pathStem file_name
      let file_extension := pathSuffix file_name
      match conv with
      | ConvOutcome.raises => (422, st, none)
      | ConvOutcome.noResult => (422, st, none)
      | ConvOutcome.produced text =>
        if text = "" then (422, st, none)
        else
          let md_filename :=
            match output_filename with
            | some s => if s = "" then original_name ++ "_" ++ unique_id ++ ".md"
                        else s ++ ".md"
            | none => original_name ++ "_" ++ unique_id ++ ".md"
          match openWrite st.converted md_filename text with
          | none => (500, st, none)
          | some c =>
            (200, { st with converted := c },
             some ⟨file_name, md_filename, text.length, unique_id, file_extension⟩)

/-- Model of `GET /convert-by-filename/{file_name}`
(`convert_file_by_name_get`, `app.py` lines 178-280); the source function
is a verbatim copy of the `POST` one, with the inputs drawn from the path
and query instead of the form. -/
def convert_file_by_name_get (st : St) (file_name0 : String)
    (output_filename : Option String) (uuid : String) (conv : ConvOutcome) :
    Nat × St × Option ConvertOk :=
  if file_name0 = "" then (400, st, none)
  else
    let file_name := basename file_name0
    if !pathExists st.uploads file_name then (404, st, none)
    else if !pathIsFile st.uploads file_name then (400, st, none)
    else
      let unique_id := strTake uuid 8
      let original_name := pathStem file_name
      let file_extension := pathSuffix file_name
      match conv with
      | ConvOutcome.raises => (422, st, none)
      | ConvOutcome.noResult => (422, st, none)
      | ConvOutcome.produced text =>
        if text = "" then (422, st, none)
        else
          let md_filename :=
            match output_filename with
            | some s => if s = "" then original_name ++ "_" ++ unique_id ++ ".md"
                        else s ++ ".md"
            | none => original_name ++ "_" ++ unique_id ++ ".md"
          match openWrite st.converted md_filename text with
          | none => (500, st, none)
          | some c =>
            (200, { st with converted := c },
             some ⟨file_name, md_filename, text.length, unique_id, file_extension⟩)

/-- Model of `POST /convert` (`convert_file`, `app.py` lines 364-466).
The temporary name embeds the raw `file.filename` (no `basename` in the
source).  Note the exit paths: the `HTTPException` 422 raised on
converter failure or empty output is re-raised by
`except HTTPException: raise` WITHOUT the temp-file cleanup, which only
runs on the success path and in the generic `except Exception` branch. -/
def convert_file (st : St) (filename0 content : String)
    (output_filename : Option String) (uuid : String) (conv : ConvOutcome) :
    Nat × St × Option ConvertOk :=
  if filename0 = "" then (400, st, none)
  else
    let unique_id := strTake uuid 8
    let original_name := pathStem filename0
    let file_extension := pathSuffix filename0
    let temp_name := unique_id ++ "_" ++ filename0
    match openWrite st.uploads temp_name content with
    | none => (500, { st with uploads := cleanupTemp st.uploads temp_name }, none)
    | some u =>
      match conv with
      | ConvOutcome.raises => (422, { st with uploads := u }, none)
      | ConvOutcome.noResult => (422, { st with uploads := u }, none)
      | ConvOutcome.produced text =>
        if text = "" then (422, { st with uploads := u }, none)
        else
          let md_filename :=
            match output_filename with
            | some s => if s = "" then original_name ++ "_" ++ unique_id ++ ".md"
                        else s ++ ".md"
            | none => original_name ++ "_" ++ unique_id ++ ".md"
          match openWrite st.converted md_filename text with
          | none => (500, { uploads := cleanupTemp u temp_name, converted := st.converted }, none)
          | some c =>
            (200, { uploads := cleanupTemp u temp_name, converted := c },
             some ⟨filename0, md_filename, text.length, unique_id, file_extension⟩)

/-- Model of `GET /download/{filename}` (`download_converted_file`,
`app.py` lines 468-480): status plus the content served.  Serving a
directory (including the special names) makes `FileResponse` fail, which
surfaces as a 500 from the framework. -/
def download_converted_file (st : St) (filename : String) : Nat × Option String :=
  if !pathExists st.converted filename then (404, none)
  else match lookupFs st.converted filename with
    | some (FsEntry.file c) => (200, some c)
    | _ => (500, none)

/-- Model of `GET /list-converted` (`list_converted_files`, `app.py`
lines 482-508): the filenames produced by `CONVERTED_DIR.glob("*.md")`,
i.e. every directory entry — regular file or not — whose name ends in
`.md`.  (The size/mtime metadata is a per-entry `stat` and carries no
logic.) -/
def list_converted_files (st : St) : List String :=
  (st.converted.filter (fun p => strEndsWith p.1 ".md")).map (fun p => p.1)

/-- Model of `DELETE /delete/{filename}` (`delete_converted_file`,
`app.py` lines 510-531). -/
def delete_converted_file (st : St) (filename : String) : Nat × St :=
  if !pathExists st.converted filename then (404, st)
  else match unlinkFs st.converted filename with
    | some d => (200, { st with converted := d })
    | none => (500, st)

/-! ### helper lemmas about the directory model -/

theorem lookupFs_append_self (d : DirState) (n : String) (e : FsEntry)
    (h : lookupFs d n = none) : lookupFs (d ++ [(n, e)]) n = some e := by
  induction d with
  | nil => simp [lookupFs]
  | cons p rest ih =>
    cases p with
    | mk m e' =>
      by_cases hm : m = n
      · simp [lookupFs, hm] at h
      · simp only [List.cons_append, lookupFs, if_neg hm] at h ⊢
        exact ih h

theorem lookupFs_replaceFs_self (d : DirState) (n c : String) (e : FsEntry)
    (h : lookupFs d n = some e) :
    lookupFs (replaceFs d n c) n = some (FsEntry.file c) := by
  induction d with
  | nil => simp [lookupFs] at h
  | cons p rest ih =>
    cases p with
    | mk m e' =>
      by_cases hm : m = n
      · simp [replaceFs, lookupFs, hm]
      · simp only [replaceFs, lookupFs, if_neg hm] at h ⊢
        exact ih h

theorem lookupFs_openWrite (d : DirState) (n c : String) (d' : DirState)
    (h : openWrite d n c = some d') : lookupFs d' n = some (FsEntry.file c) := by
  unfold openWrite at h
  by_cases hs : specialName n = true
  · simp [hs] at h
  · simp only [Bool.not_eq_true] at hs
    rw [hs] at h
    simp only [Bool.false_eq_true, if_false] at h
    cases he : lookupFs d n with
    | none =>
      rw [he] at h
      simp only [Option.some.injEq] at h
      subst h
      exact lookupFs_append_self _ _ _ he
    | some e =>
      cases e with
      | dir => rw [he] at h; simp at h
      | file c0 =>
        rw [he] at h
        simp only [Option.some.injEq] at h
        subst h
        exact lookupFs_replaceFs_self _ _ _ _ he

theorem pathExists_of_isFile (d : DirState) (n : String)
    (h : pathIsFile d n = true) : pathExists d n = true := by
  unfold pathIsFile at h
  unfold pathExists
  by_cases hs : specialName n = true
  · simp [hs] at h
  · simp only [Bool.not_eq_true] at hs
    rw [hs] at h ⊢
    simp only [Bool.false_eq_true, if_false] at h
    cases he : lookupFs d n with
    | none => rw [he] at h; simp at h
    | some e => simp [he]

theorem mem_list_converted_iff (st : St) (n : String) :
    n ∈ list_converted_files st ↔
      (∃ e, (n, e) ∈ st.converted) ∧ strEndsWith n ".md" = true := by
  unfold list_converted_files
  constructor
  · intro h
    rcases List.mem_map.mp h with ⟨p, hp, hpeq⟩
    rcases List.mem_filter.mp hp with ⟨hmem, hf⟩
    subst hpeq
    exact ⟨⟨p.2, by simpa using hmem⟩, hf⟩
  · rintro ⟨⟨e, he⟩, hend⟩
    exact List.mem_map.mpr ⟨(n, e), List.mem_filter.mpr ⟨he, hend⟩, rfl⟩

/-! ### the claims -/

/-- C1: the spec demands that every externally supplied filename be
reduced to its final path segment before being joined to a directory
path, so that no filesystem read or write ever occurs outside the
Uploads/Converted directories.  The code violates this: `GET
/download/{filename}` and `DELETE /delete/{filename}` join the raw
filename with no `os.path.basename`, so the name `".."` resolves to
`/app`, outside Converted — the handlers stat (and try to serve /
unlink) that outside path, answering 500 instead of 404 even on an empty
Converted directory; and the conversion endpoints join the raw
`output_filename` override, so `output_filename = "../secret"` makes the
converted-output write land at `/app/secret.md`, outside Converted. -/
theorem c1_download_delete_escape_converted_dir :
    insideDir convertedDirSegs (delete_target "..") = false
    ∧ delete_target ".." = ["app"]
    ∧ insideDir convertedDirSegs (download_target "..") = false
    ∧ insideDir convertedDirSegs (convert_output_target ("../secret" ++ ".md")) = false
    ∧ convert_output_target ("../secret" ++ ".md") = ["app", "secret.md"]
    ∧ delete_converted_file ⟨[], []⟩ ".." = (500, ⟨[], []⟩)
    ∧ download_converted_file ⟨[], []⟩ ".." = (500, none) := by
  refine ⟨?_, ?_, ?_, ?_, ?_, ?_, ?_⟩ <;> rfl

/-- C2: the spec demands that the temporary file created by `POST
/convert` be deleted on every exit path.  The code violates this on the
422 path: the `HTTPException` raised on conversion failure or empty
output is re-raised by `except HTTPException: raise`, which skips the
cleanup, leaving the temporary file `{token}_{filename}` in Uploads.
Concretely: converting `a.txt` (uuid draw `01234567…`) with an
empty-output converter answers 422 with `01234567_a.txt` still present. -/
theorem c2_convert_orphans_temp_on_422 :
    convert_file ⟨[], []⟩ "a.txt" "data" none "0123456789" (ConvOutcome.produced "")
      = (422, ⟨[("01234567_a.txt", FsEntry.file "data")], []⟩, none)
    ∧ lookupFs [("01234567_a.txt", FsEntry.file "data")] "01234567_a.txt"
      = some (FsEntry.file "data") := ⟨rfl, rfl⟩

/-- C3 counterexample: the claim quantifies over every sanitized
filename, but a client filename of `"a/"` sanitizes to `""`, and then
`UPLOAD_DIR / ""` is the uploads directory itself, which exists — so the
code answers 409 although no file of that (empty) name exists, where the
claim demands 200 with the bytes persisted. -/
theorem c3_counterexample_empty_sanitized_name :
    upload_file ⟨[], []⟩ "a/" "data" = (409, ⟨[], []⟩, none)
    ∧ basename "a/" = ""
    ∧ lookupFs ([] : DirState) (basename "a/") = none := ⟨rfl, rfl, rfl⟩

/-- C3 (amended): for every sanitized filename other than the special
names `""`, `"."`, `".."` (which denote the directory itself or its
parent rather than a storable file), a first upload answers 200 and
persists the bytes readable back identically, and a second upload of the
same sanitized name answers 409 and leaves the first file's content
unmodified. -/
theorem c3_upload_put_then_conflict (st : St) (name content c2 : String)
    (hname : name ≠ "")
    (hspec : specialName (basename name) = false)
    (hfresh : lookupFs st.uploads (basename name) = none) :
    upload_file st name content =
      (200, { st with uploads := st.uploads ++ [(basename name, FsEntry.file content)] },
       some content.length)
    ∧ lookupFs (st.uploads ++ [(basename name, FsEntry.file content)]) (basename name)
        = some (FsEntry.file content)
    ∧ upload_file { st with uploads := st.uploads ++ [(basename name, FsEntry.file content)] }
        name c2
        = (409, { st with uploads := st.uploads ++ [(basename name, FsEntry.file content)] },
           none) := by
  have hlook := lookupFs_append_self st.uploads (basename name) (FsEntry.file content) hfresh
  have hex : pathExists st.uploads (basename name) = false := by
    unfold pathExists
    rw [hspec, hfresh]
    rfl
  have hex2 : pathExists (st.uploads ++ [(basename name, FsEntry.file content)])
      (basename name) = true := by
    unfold pathExists
    rw [hlook]
    simp [hspec]
  refine ⟨?_, hlook, ?_⟩
  · simp [upload_file, hname, hex, openWrite, hspec, hfresh]
  · simp [upload_file, hname, hex2]

/-- C3 witness: uploading `dir/a.txt` (sanitized `a.txt`) into an empty
store answers 200 and persists `"hello"`; the repeat answers 409 and
leaves the content in place. -/
theorem c3_upload_witness :
    ("dir/a.txt" ≠ "")
    ∧ specialName (basename "dir/a.txt") = false
    ∧ lookupFs ([] : DirState) (basename "dir/a.txt") = none
    ∧ upload_file ⟨[], []⟩ "dir/a.txt" "hello"
        = (200, ⟨[("a.txt", FsEntry.file "hello")], []⟩, some 5)
    ∧ upload_file ⟨[("a.txt", FsEntry.file "hello")], []⟩ "dir/a.txt" "world"
        = (409, ⟨[("a.txt", FsEntry.file "hello")], []⟩, none) := by
  have h := c3_upload_put_then_conflict ⟨[], []⟩ "dir/a.txt" "hello" "world"
    (by decide) (by decide) rfl
  exact ⟨by decide, by decide, rfl, h.1, h.2.2⟩

/-- C4 counterexample: the claim maps an existing-but-not-regular-file
name to 404, but the code answers 400 there (`app.py` lines 106-110):
with a directory `d` in Uploads, `POST /convert-by-filename` for `d`
returns status 400, not 404. -/
theorem c4_counterexample_directory_gives_400 :
    convert_file_by_name ⟨[("d", FsEntry.dir)], []⟩ "d" none "u" ConvOutcome.raises
      = (400, ⟨[("d", FsEntry.dir)], []⟩, none)
    ∧ pathExists [("d", FsEntry.dir)] "d" = true
    ∧ pathIsFile [("d", FsEntry.dir)] "d" = false := ⟨rfl, rfl, rfl⟩

/-- C4 (amended): a filename-driven conversion whose sanitized name does
not exist in Uploads fails with 404, and one whose sanitized name exists
but is not a regular file fails with 400; in both cases nothing is
written to either directory (the state is returned unchanged). -/
theorem c4_convert_by_name_missing_input (st : St) (fn uuid : String)
    (ofn : Option String) (conv : ConvOutcome)
    (hfn : fn ≠ "") :
    (pathExists st.uploads (basename fn) = false →
      convert_file_by_name st fn ofn uuid conv = (404, st, none))
    ∧ (pathExists st.uploads (basename fn) = true →
       pathIsFile st.uploads (basename fn) = false →
      convert_file_by_name st fn ofn uuid conv = (400, st, none)) := by
  constructor
  · intro hex
    simp [convert_file_by_name, hfn, hex]
  · intro hex hfile
    simp [convert_file_by_name, hfn, hex, hfile]

/-- C4 witness: on an empty Uploads directory, converting `nofile.txt`
answers 404; with a directory `d` present, converting `d` answers 400;
both leave the state unchanged. -/
theorem c4_witness :
    ("nofile.txt" ≠ "")
    ∧ convert_file_by_name ⟨[], []⟩ "nofile.txt" none "u" ConvOutcome.raises
        = (404, ⟨[], []⟩, none)
    ∧ convert_file_by_name ⟨[("d", FsEntry.dir)], []⟩ "d" none "u" ConvOutcome.noResult
        = (400, ⟨[("d", FsEntry.dir)], []⟩, none) := by
  refine ⟨by decide, ?_, ?_⟩
  · exact (c4_convert_by_name_missing_input ⟨[], []⟩ "nofile.txt" "u" none
      ConvOutcome.raises (by decide)).1 rfl
  · exact (c4_convert_by_name_missing_input ⟨[("d", FsEntry.dir)], []⟩ "d" "u" none
      ConvOutcome.noResult (by decide)).2 rfl rfl

/-- C5: the form-based `POST /convert-by-filename` and the
path-parameter-based `GET /convert-by-filename/{file_name}` are
behaviorally identical: for the same file name, output-name override,
uuid draw and converter outcome against the same directory state, both
produce the same status, state and response payload.  (The two source
functions are verbatim copies of each other.) -/
theorem c5_post_get_equivalent (st : St) (fn : String) (ofn : Option String)
    (uuid : String) (conv : ConvOutcome) :
    convert_file_by_name st fn ofn uuid conv
      = convert_file_by_name_get st fn ofn uuid conv := rfl

/-- C6: on a successful conversion, an explicit `output_filename` of
`"report"` names the Converted entry literally `report.md` whatever the
original file was; with no override the name is
`{originalStem}_{token}.md` where the token is the first 8 characters of
the request's uuid draw (8 characters exactly, since a `uuid4` string
has 36), and distinct token draws give distinct default names. -/
theorem c6_output_naming (st : St) (fn uuid t : String) (c : DirState)
    (hfn : fn ≠ "")
    (hfile : pathIsFile st.uploads (basename fn) = true)
    (ht : t ≠ "") :
    (openWrite st.converted "report.md" t = some c →
      convert_file_by_name st fn (some "report") uuid (ConvOutcome.produced t)
        = (200, ⟨st.uploads, c⟩,
           some ⟨basename fn, "report.md", t.length, strTake uuid 8,
                 pathSuffix (basename fn)⟩)
      ∧ lookupFs c "report.md" = some (FsEntry.file t))
    ∧ (openWrite st.converted
         (pathStem (basename fn) ++ "_" ++ strTake uuid 8 ++ ".md") t = some c →
      convert_file_by_name st fn none uuid (ConvOutcome.produced t)
        = (200, ⟨st.uploads, c⟩,
           some ⟨basename fn, pathStem (basename fn) ++ "_" ++ strTake uuid 8 ++ ".md",
                 t.length, strTake uuid 8, pathSuffix (basename fn)⟩))
    ∧ (8 ≤ uuid.length → (strTake uuid 8).length = 8)
    ∧ (∀ u2 : String, strTake uuid 8 ≠ strTake u2 8 →
        pathStem (basename fn) ++ "_" ++ strTake uuid 8 ++ ".md"
          ≠ pathStem (basename fn) ++ "_" ++ strTake u2 8 ++ ".md") := by
  have hex := pathExists_of_isFile _ _ hfile
  refine ⟨?_, ?_, ?_, ?_⟩
  · intro hw
    refine ⟨?_, lookupFs_openWrite _ _ _ _ hw⟩
    simp [convert_file_by_name, hfn, hex, hfile, ht, hw]
  · intro hw
    simp [convert_file_by_name, hfn, hex, hfile, ht, hw]
  · intro h
    simp only [String.length] at h
    simp only [strTake, String.length, List.length_take]
    omega
  · intro u2 hne heq
    apply hne
    have hd := congrArg String.data heq
    simp only [String.data_append] at hd
    exact String.ext (List.append_cancel_left (List.append_cancel_right hd))

/-- C6 witness: converting `doc.txt` with override `report` produces the
entry `report.md`; the 8-character token and default-name distinctness
hold at the concrete uuid draws `123456789abc` and `abcdefgh0000`. -/
theorem c6_witness :
    ("doc.txt" ≠ "")
    ∧ pathIsFile [("doc.txt", FsEntry.file "x")] "doc.txt" = true
    ∧ ("content" ≠ "")
    ∧ convert_file_by_name ⟨[("doc.txt", FsEntry.file "x")], []⟩ "doc.txt" (some "report")
        "123456789abc" (ConvOutcome.produced "content")
        = (200, ⟨[("doc.txt", FsEntry.file "x")], [("report.md", FsEntry.file "content")]⟩,
           some ⟨"doc.txt", "report.md", 7, "12345678", ".txt"⟩)
    ∧ (strTake "123456789abc" 8).length = 8
    ∧ pathStem (basename "doc.txt") ++ "_" ++ strTake "123456789abc" 8 ++ ".md"
        ≠ pathStem (basename "doc.txt") ++ "_" ++ strTake "abcdefgh0000" 8 ++ ".md" := by
  have h := c6_output_naming ⟨[("doc.txt", FsEntry.file "x")], []⟩ "doc.txt" "123456789abc"
    "content" [("report.md", FsEntry.file "content")] (by decide) rfl (by decide)
  refine ⟨by decide, rfl, by decide, ?_, h.2.2.1 (by decide),
    h.2.2.2 "abcdefgh0000" (by decide)⟩
  exact (h.1 rfl).1

/-- C7: whenever the external converter raises, returns a falsy result,
or returns empty text content, the filename-driven conversion answers
422 with the state — in particular the Converted directory — unchanged;
the combined `POST /convert` also answers 422 with Converted unchanged
(its Uploads component keeps the temporary file, see C2). -/
theorem c7_empty_output_gives_422 (st : St) (fn content uuid : String)
    (ofn : Option String) (conv : ConvOutcome) (u : DirState)
    (hfn : fn ≠ "")
    (hfile : pathIsFile st.uploads (basename fn) = true)
    (hconv : conv = ConvOutcome.raises ∨ conv = ConvOutcome.noResult
             ∨ conv = ConvOutcome.produced "") :
    convert_file_by_name st fn ofn uuid conv = (422, st, none)
    ∧ (openWrite st.uploads (strTake uuid 8 ++ "_" ++ fn) content = some u →
        convert_file st fn content ofn uuid conv = (422, ⟨u, st.converted⟩, none)) := by
  have hex := pathExists_of_isFile _ _ hfile
  constructor
  · rcases hconv with h | h | h <;> subst h <;> simp [convert_file_by_name, hfn, hex, hfile]
  · intro hw
    rcases hconv with h | h | h <;> subst h <;> simp [convert_file, hfn, hw]

/-- C7 witness: converting `a.txt` with an empty-output converter answers
422 from both filename-driven conversion (state fully unchanged) and the
combined endpoint (Converted unchanged). -/
theorem c7_witness :
    ("a.txt" ≠ "")
    ∧ convert_file_by_name ⟨[("a.txt", FsEntry.file "x")], [("old.md", FsEntry.file "o")]⟩
        "a.txt" none "u" (ConvOutcome.produced "")
        = (422, ⟨[("a.txt", FsEntry.file "x")], [("old.md", FsEntry.file "o")]⟩, none)
    ∧ convert_file ⟨[("a.txt", FsEntry.file "x")], [("old.md", FsEntry.file "o")]⟩
        "a.txt" "data" none "u" (ConvOutcome.produced "")
        = (422, ⟨[("a.txt", FsEntry.file "x"), ("u_a.txt", FsEntry.file "data")],
                 [("old.md", FsEntry.file "o")]⟩, none) := by
  have h := c7_empty_output_gives_422
    ⟨[("a.txt", FsEntry.file "x")], [("old.md", FsEntry.file "o")]⟩
    "a.txt" "data" "u" none (ConvOutcome.produced "")
    [("a.txt", FsEntry.file "x"), ("u_a.txt", FsEntry.file "data")]
    (by decide) rfl (Or.inr (Or.inr rfl))
  exact ⟨by decide, h.1, h.2 rfl⟩

/-- C8 counterexample: the claim says the listing holds exactly the
regular files with the `.md` suffix, but `CONVERTED_DIR.glob("*.md")`
(`app.py` line 487) matches directory entries of any kind — unlike
`list-uploads`, no `is_file()` check is made — so a directory named
`d.md` placed in Converted out-of-band appears in the listing. -/
theorem c8_counterexample_directory_listed :
    list_converted_files ⟨[], [("d.md", FsEntry.dir)]⟩ = ["d.md"]
    ∧ pathIsFile [("d.md", FsEntry.dir)] "d.md" = false := ⟨rfl, rfl⟩

/-- C8 (amended): `GET /list-converted` returns exactly the directory
entries — regular files or not — whose names end with `.md`; entries
without the `.md` suffix never appear. -/
theorem c8_listing_iff_md_suffix (st : St) (n : String) :
    n ∈ list_converted_files st ↔
      (∃ e, (n, e) ∈ st.converted) ∧ strEndsWith n ".md" = true :=
  mem_list_converted_iff st n

/-- C9: download and delete operate on any regular file present in
Converted, whatever its suffix: a non-`.md` file can be downloaded
(200 with its content) and deleted (200, entry removed), even though the
listing never reports it. -/
theorem c9_download_delete_any_name (st : St) (n c : String)
    (hspec : specialName n = false)
    (hlk : lookupFs st.converted n = some (FsEntry.file c)) :
    download_converted_file st n = (200, some c)
    ∧ delete_converted_file st n = (200, { st with converted := removeFs st.converted n })
    ∧ (strEndsWith n ".md" = false → n ∉ list_converted_files st) := by
  have hex : pathExists st.converted n = true := by
    unfold pathExists
    rw [hlk]
    simp
  refine ⟨?_, ?_, ?_⟩
  · simp [download_converted_file, hex, hlk]
  · simp [delete_converted_file, hex, unlinkFs, hspec, hlk]
  · intro hend hmem
    rcases (mem_list_converted_iff st n).mp hmem with ⟨_, hmd⟩
    rw [hend] at hmd
    exact Bool.false_ne_true hmd

/-- C9 witness: a file `notes.txt` in Converted downloads and deletes
with 200 while never appearing in the `.md` listing. -/
theorem c9_witness :
    specialName "notes.txt" = false
    ∧ lookupFs [("notes.txt", FsEntry.file "hi")] "notes.txt" = some (FsEntry.file "hi")
    ∧ download_converted_file ⟨[], [("notes.txt", FsEntry.file "hi")]⟩ "notes.txt"
        = (200, some "hi")
    ∧ delete_converted_file ⟨[], [("notes.txt", FsEntry.file "hi")]⟩ "notes.txt"
        = (200, ⟨[], []⟩)
    ∧ "notes.txt" ∉ list_converted_files ⟨[], [("notes.txt", FsEntry.file "hi")]⟩ := by
  have h := c9_download_delete_any_name ⟨[], [("notes.txt", FsEntry.file "hi")]⟩
    "notes.txt" "hi" (by decide) rfl
  exact ⟨by decide, rfl, h.1, h.2.1, h.2.2 (by decide)⟩

theorem string_eq_empty_of_length_eq_zero (s : String) (h : s.length = 0) : s = "" := by
  cases s with
  | mk d =>
    cases d with
    | nil => rfl
    | cons a as => simp [String.length] at h

theorem md_append_ne (s : String) (hs : s ≠ "") : s ++ ".md" ≠ ".md" := by
  intro h
  apply hs
  have hlen := congrArg String.length h
  rw [String.length_append] at hlen
  have h3 : (".md" : String).length = 3 := rfl
  rw [h3] at hlen
  exact string_eq_empty_of_length_eq_zero s (by omega)

theorem default_name_ne_md (a b : String) : a ++ "_" ++ b ++ ".md" ≠ ".md" := by
  intro h
  have hlen := congrArg String.length h
  simp only [String.length_append] at hlen
  have h1 : ("_" : String).length = 1 := rfl
  have h3 : (".md" : String).length = 3 := rfl
  rw [h1, h3] at hlen
  omega

/-- C10: supplying `output_filename` as the empty string behaves exactly
like omitting it (the Python truthiness test `if output_filename:` treats
both as absent), on both the filename-driven and the combined conversion
endpoints; and no conversion request ever records a converted file named
literally `".md"`, whatever the override. -/
theorem c10_empty_override_equals_default (st : St) (fn content uuid : String)
    (conv : ConvOutcome) :
    convert_file_by_name st fn (some "") uuid conv
      = convert_file_by_name st fn none uuid conv
    ∧ convert_file st fn content (some "") uuid conv
      = convert_file st fn content none uuid conv
    ∧ (∀ (ofn : Option String) (m : ConvertOk),
        (convert_file_by_name st fn ofn uuid conv).2.2 = some m →
        m.converted_filename ≠ ".md")
    ∧ (∀ (ofn : Option String) (m : ConvertOk),
        (convert_file st fn content ofn uuid conv).2.2 = some m →
        m.converted_filename ≠ ".md") := by
  refine ⟨rfl, rfl, ?_, ?_⟩
  · intro ofn m hm
    by_cases h1 : fn = ""
    · simp [convert_file_by_name, h1] at hm
    · cases h2 : pathExists st.uploads (basename fn) with
      | false => simp [convert_file_by_name, h1, h2] at hm
      | true =>
        cases h3 : pathIsFile st.uploads (basename fn) with
        | false => simp [convert_file_by_name, h1, h2, h3] at hm
        | true =>
          cases conv with
          | raises => simp [convert_file_by_name, h1, h2, h3] at hm
          | noResult => simp [convert_file_by_name, h1, h2, h3] at hm
          | produced text =>
            by_cases h4 : text = ""
            · simp [convert_file_by_name, h1, h2, h3, h4] at hm
            · rcases ofn with _ | s
              · cases hw : openWrite st.converted
                    (pathStem (basename fn) ++ "_" ++ strTake uuid 8 ++ ".md") text with
                | none => simp [convert_file_by_name, h1, h2, h3, h4, hw] at hm
                | some c =>
                  simp [convert_file_by_name, h1, h2, h3, h4, hw] at hm
                  subst hm
                  exact default_name_ne_md _ _
              · by_cases h5 : s = ""
                · subst h5
                  cases hw : openWrite st.converted
                      (pathStem (basename fn) ++ "_" ++ strTake uuid 8 ++ ".md") text with
                  | none => simp [convert_file_by_name, h1, h2, h3, h4, hw] at hm
                  | some c =>
                    simp [convert_file_by_name, h1, h2, h3, h4, hw] at hm
                    subst hm
                    exact default_name_ne_md _ _
                · cases hw : openWrite st.converted (s ++ ".md") text with
                  | none => simp [convert_file_by_name, h1, h2, h3, h4, h5, hw] at hm
                  | some c =>
                    simp [convert_file_by_name, h1, h2, h3, h4, h5, hw] at hm
                    subst hm
                    exact md_append_ne s h5
  · intro ofn m hm
    by_cases h1 : fn = ""
    · simp [convert_file, h1] at hm
    · cases hw0 : openWrite st.uploads (strTake uuid 8 ++ "_" ++ fn) content with
      | none => simp [convert_file, h1, hw0] at hm
      | some u =>
        cases conv with
        | raises => simp [convert_file, h1, hw0] at hm
        | noResult => simp [convert_file, h1, hw0] at hm
        | produced text =>
          by_cases h4 : text = ""
          · simp [convert_file, h1, hw0, h4] at hm
          · rcases ofn with _ | s
            · cases hw : openWrite st.converted
                  (pathStem fn ++ "_" ++ strTake uuid 8 ++ ".md") text with
              | none => simp [convert_file, h1, hw0, h4, hw] at hm
              | some c =>
                simp [convert_file, h1, hw0, h4, hw] at hm
                subst hm
                exact default_name_ne_md _ _
            · by_cases h5 : s = ""
              · subst h5
                cases hw : openWrite st.converted
                    (pathStem fn ++ "_" ++ strTake uuid 8 ++ ".md") text with
                | none => simp [convert_file, h1, hw0, h4, hw] at hm
                | some c =>
                  simp [convert_file, h1, hw0, h4, hw] at hm
                  subst hm
                  exact default_name_ne_md _ _
              · cases hw : openWrite st.converted (s ++ ".md") text with
                | none => simp [convert_file, h1, hw0, h4, h5, hw] at hm
                | some c =>
                  simp [convert_file, h1, hw0, h4, h5, hw] at hm
                  subst hm
                  exact md_append_ne s h5

/-- C10 witness: a concrete default-named conversion result whose
converted filename, `a_01234567.md`, is not the bare `.md`. -/
theorem c10_witness :
    (convert_file_by_name ⟨[("a.txt", FsEntry.file "x")], []⟩ "a.txt" none "0123456789"
        (ConvOutcome.produced "hi")).2.2
      = some ⟨"a.txt", "a_01234567.md", 2, "01234567", ".txt"⟩
    ∧ (⟨"a.txt", "a_01234567.md", 2, "01234567", ".txt"⟩ : ConvertOk).converted_filename
        ≠ ".md"
    ∧ convert_file_by_name ⟨[("a.txt", FsEntry.file "x")], []⟩ "a.txt" (some "")
        "0123456789" (ConvOutcome.produced "hi")
      = convert_file_by_name ⟨[("a.txt", FsEntry.file "x")], []⟩ "a.txt" none
        "0123456789" (ConvOutcome.produced "hi") := by
  have h := c10_empty_override_equals_default ⟨[("a.txt", FsEntry.file "x")], []⟩
    "a.txt" "c" "0123456789" (ConvOutcome.produced "hi")
  exact ⟨rfl, h.2.2.1 none ⟨"a.txt", "a_01234567.md", 2, "01234567", ".txt"⟩ rfl, h.1⟩

end MarkitdownApp
